import Mathlib

/-!
Verification development for the `misanthropic` crate's streaming-response
reconstruction engine.  The Lean definitions below are a shallow embedding of
the Rust source:

* `src/stream.rs` — `Delta`, `Delta::merge`, `ContentMismatch`, `OutOfBounds`,
  `DeltaError`, `Event`, `ApiResult`, `Stream::new`, and the `FilterExt`
  stream views (`filter_rate_limit`, `deltas`, `text`);
* `src/prompt/message.rs` — `Block`, `Content`, `Content::push`,
  `Content::cache`, `Content::push_delta`, `Block::merge_deltas`;
* `src/response/message.rs` — `response::Message`, `Message::apply_delta`;
* `src/client.rs` — `AnthropicError`.

Rust `Cow<str>` payloads are modelled as `String`; `serde_json::Value` is
modelled by the inductive `Json`; a lazily pulled stream of items is modelled
as the `List` of the items it yields in order; in-place mutation is modelled
by state-passing; a Rust panic (`unwrap` on `None`) is modelled by the
`PanicOr.panics` constructor.  Feature-gated fields (`cache_control`, the
cache counters in `Usage`) are modelled as present, matching the source built
with the `prompt-caching` feature.
-/

namespace Misanthropic

/-- Variant of `stream.rs` `Delta`: a text fragment or a partial-JSON
fragment (field `partial_json` in the source). -/
inductive Delta where
  | text (text : String) : Delta
  | json (partial_json : String) : Delta
  deriving DecidableEq

/-- Name of a `Delta` variant as produced by `stringify!` in
`Delta::merge` (`src/stream.rs`). -/
def Delta.variantName : Delta → String
  | .text _ => "Delta::Text"
  | .json _ => "Delta::Json"

/-- Payload string of a `Delta` (the `text` or `partial_json` field). -/
def Delta.payload : Delta → String
  | .text t => t
  | .json p => p

/-- The two `Delta` variants, as a bare tag (used to state the claims about
same-variant and mixed-variant merges). -/
inductive DeltaVariant where
  | text : DeltaVariant
  | json : DeltaVariant
  deriving DecidableEq

/-- Variant tag of a `Delta`. -/
def Delta.variant : Delta → DeltaVariant
  | .text _ => .text
  | .json _ => .json

/-- Rebuild a `Delta` from a variant tag and a payload string. -/
def DeltaVariant.mkDelta : DeltaVariant → String → Delta
  | .text, s => .text s
  | .json, s => .json s

/-- Variant name string for a bare variant tag. -/
def DeltaVariant.name : DeltaVariant → String
  | .text => "Delta::Text"
  | .json => "Delta::Json"

/-- Error `ContentMismatch` from `src/stream.rs`: `from` is the incoming
`Delta`, `to_` names the target variant (the source field `from` is a Lean
keyword, hence `from_`). -/
structure ContentMismatch where
  from_ : Delta
  to_ : String
  deriving DecidableEq

/-- Error `OutOfBounds` from `src/stream.rs`.  The source declares it (with
the offending `index` and the `max` index) but never constructs it. -/
structure OutOfBounds where
  index : Nat
  max : Nat
  deriving DecidableEq

/-- Error `DeltaError` from `src/stream.rs`: a content mismatch, an
out-of-bounds index, or a JSON parse failure.  The `serde_json` error message
carried by the `Parse` variant is modelled as the offending fragment. -/
inductive DeltaError where
  | contentMismatch (error : ContentMismatch) : DeltaError
  | outOfBounds (error : OutOfBounds) : DeltaError
  | parse (error : String) : DeltaError
  deriving DecidableEq

/-- Function `Delta::merge` from `src/stream.rs`: concatenate same-variant
payloads, otherwise report a `ContentMismatch` with `from` the incoming delta
and `to` naming the receiver's variant. -/
def Delta.merge : Delta → Delta → Except ContentMismatch Delta
  | .text t, .text d => .ok (.text (t ++ d))
  | .json p, .json d => .ok (.json (p ++ d))
  | to_, from_ => .error ⟨from_, to_.variantName⟩

/-- Model of `serde_json::Value` (crate `serde_json`): a JSON document.
Numbers are modelled as integers, which covers every numeric payload the
engine's claims exercise. -/
inductive Json where
  | null : Json
  | bool (b : Bool) : Json
  | num (n : Int) : Json
  | str (s : String) : Json
  | arr (elems : List Json) : Json
  | obj (fields : List (String × Json)) : Json

/-- Enum `CacheControl` from `src/prompt/message.rs`. -/
inductive CacheControl where
  | ephemeral : CacheControl
  deriving DecidableEq

/-- Enum `MediaType` from `src/prompt/message.rs` (all image-format features
enabled). -/
inductive MediaType where
  | jpeg : MediaType
  | png : MediaType
  | gif : MediaType
  | webp : MediaType
  deriving DecidableEq

/-- Enum `Image` from `src/prompt/message.rs`: base64 image data. -/
inductive Image where
  | base64 (media_type : MediaType) (data : String) : Image
  deriving DecidableEq

/-- Struct `tool::Use` from `src/tool.rs`. -/
structure Tool.Use where
  id : String
  name : String
  input : Json
  cache_control : Option CacheControl

mutual

/-- Enum `Block` from `src/prompt/message.rs`: one content block of a
message.  The source's `ToolUse` variant wraps a `tool::Use` and the
`ToolResult` variant wraps a `tool::Result`. -/
inductive Block where
  | text (text : String) (cache_control : Option CacheControl) : Block
  | image (image : Image) (cache_control : Option CacheControl) : Block
  | toolUse (call : Tool.Use) : Block
  | toolResult (result : ToolResult) : Block

/-- Struct `tool::Result` from `src/tool.rs` (one-constructor inductive
because its `content` field is mutually recursive with `Content`). -/
inductive ToolResult where
  | mk (tool_use_id : String) (content : Content) (is_error : Bool)
      (cache_control : Option CacheControl) : ToolResult

/-- Enum `Content` from `src/prompt/message.rs`: a single implicit text
block, or an ordered list of blocks. -/
inductive Content where
  | singlePart (text : String) : Content
  | multiPart (blocks : List Block) : Content

end

/-- Name of a `Block` variant as produced by `stringify!` in
`Block::merge_deltas` (`src/prompt/message.rs`). -/
def Block.variantName : Block → String
  | .text .. => "Block::Text"
  | .toolUse .. => "Block::ToolUse"
  | .toolResult .. => "Block::ToolResult"
  | .image .. => "Block::Image"

/-- Model of a JSON text parser standing in for `serde_json::from_str`
(collaborator crate `serde_json`): fuel-bounded recursive descent over the
character list.  String escapes cover the forms the engine's payloads use. -/
def Json.parseHexDigit (c : Char) : Option Nat :=
  if '0' ≤ c ∧ c ≤ '9' then some (c.toNat - '0'.toNat)
  else if 'a' ≤ c ∧ c ≤ 'f' then some (c.toNat - 'a'.toNat + 10)
  else if 'A' ≤ c ∧ c ≤ 'F' then some (c.toNat - 'A'.toNat + 10)
  else none

/-- Parse the body of a JSON string literal after the opening quote,
returning the string and the rest of the input after the closing quote. -/
def Json.parseStringBody : Nat → List Char → Option (String × List Char)
  | 0, _ => none
  | _ + 1, [] => none
  | fuel + 1, c :: rest =>
    if c = '"' then some ("", rest)
    else if c = '\\' then
      match rest with
      | esc :: rest2 =>
        let decoded : Option Char :=
          if esc = '"' then some '"'
          else if esc = '\\' then some '\\'
          else if esc = '/' then some '/'
          else if esc = 'n' then some '\n'
          else if esc = 't' then some '\t'
          else if esc = 'r' then some '\r'
          else none
        match decoded with
        | some d =>
          match Json.parseStringBody fuel rest2 with
          | some (s, rest3) => some (⟨d :: s.data⟩, rest3)
          | none => none
        | none => none
      | [] => none
    else
      match Json.parseStringBody fuel rest with
      | some (s, rest2) => some (⟨c :: s.data⟩, rest2)
      | none => none

/-- Whitespace skipping for the JSON parser. -/
def Json.skipWs : List Char → List Char
  | c :: rest =>
    if c = ' ' ∨ c = '\n' ∨ c = '\t' ∨ c = '\r' then Json.skipWs rest
    else c :: rest
  | [] => []

/-- Parse a run of decimal digits, left to right, with an accumulator. -/
def Json.parseNatAcc (acc : Nat) : List Char → Nat × List Char
  | c :: rest =>
    if c.isDigit then Json.parseNatAcc (acc * 10 + (c.toNat - '0'.toNat)) rest
    else (acc, c :: rest)
  | [] => (acc, [])

mutual

/-- Parse one JSON value. -/
def Json.parseValue : Nat → List Char → Option (Json × List Char)
  | 0, _ => none
  | fuel + 1, input =>
    match Json.skipWs input with
    | 'n' :: 'u' :: 'l' :: 'l' :: rest => some (.null, rest)
    | 't' :: 'r' :: 'u' :: 'e' :: rest => some (.bool true, rest)
    | 'f' :: 'a' :: 'l' :: 's' :: 'e' :: rest => some (.bool false, rest)
    | '"' :: rest =>
      match Json.parseStringBody (rest.length + 1) rest with
      | some (s, rest2) => some (.str s, rest2)
      | none => none
    | '[' :: rest =>
      match Json.skipWs rest with
      | ']' :: rest2 => some (.arr [], rest2)
      | other => match Json.parseElems fuel other with
        | some (elems, rest2) => some (.arr elems, rest2)
        | none => none
    | '-' :: c :: rest =>
      if c.isDigit then
        let (n, rest2) := Json.parseNatAcc (c.toNat - '0'.toNat) rest
        some (.num (-(n : Int)), rest2)
      else none
    | c :: rest =>
      if c = '\x7b' then
        match Json.skipWs rest with
        | c2 :: rest2 =>
          if c2 = '\x7d' then some (.obj [], rest2)
          else match Json.parseFields fuel (c2 :: rest2) with
            | some (fields, rest3) => some (.obj fields, rest3)
            | none => none
        | [] => none
      else if c.isDigit then
        let (n, rest2) := Json.parseNatAcc (c.toNat - '0'.toNat) rest
        some (.num (n : Int), rest2)
      else none
    | [] => none

/-- Parse one or more comma-separated JSON array elements, up to and
including the closing bracket. -/
def Json.parseElems : Nat → List Char → Option (List Json × List Char)
  | 0, _ => none
  | fuel + 1, input =>
    match Json.parseValue fuel input with
    | some (v, rest) =>
      match Json.skipWs rest with
      | ',' :: rest2 =>
        match Json.parseElems fuel rest2 with
        | some (vs, rest3) => some (v :: vs, rest3)
        | none => none
      | ']' :: rest2 => some ([v], rest2)
      | _ => none
    | none => none

/-- Parse one or more comma-separated JSON object fields, up to and
including the closing brace. -/
def Json.parseFields : Nat → List Char → Option (List (String × Json) × List Char)
  | 0, _ => none
  | fuel + 1, input =>
    match Json.skipWs input with
    | '"' :: rest =>
      match Json.parseStringBody (rest.length + 1) rest with
      | some (key, rest2) =>
        match Json.skipWs rest2 with
        | ':' :: rest3 =>
          match Json.parseValue fuel rest3 with
          | some (v, rest4) =>
            match Json.skipWs rest4 with
            | ',' :: rest5 =>
              match Json.parseFields fuel rest5 with
              | some (fields, rest6) => some ((key, v) :: fields, rest6)
              | none => none
            | c :: rest5 =>
              if c = '\x7d' then some ([(key, v)], rest5) else none
            | [] => none
          | none => none
        | _ => none
      | none => none
    | _ => none

end

/-- Parse a whole JSON document: one value followed only by whitespace, as
`serde_json::from_str` requires. -/
def Json.parse (s : String) : Option Json :=
  match Json.parseValue (s.length + 1) s.data with
  | some (v, rest) =>
    match Json.skipWs rest with
    | [] => some v
    | _ :: _ => none
  | none => none

/-- Function `Block::merge_deltas` from `src/prompt/message.rs`: fold the
deltas with `Delta::merge` (an empty sequence is a no-op), then dispatch the
merged delta into the block.  A merged text delta is appended to a `Text`
block; a merged JSON delta **replaces** a `ToolUse` block's `input` with the
result of parsing the concatenated fragment from scratch (a parse failure is
`DeltaError::Parse`); every other pairing is a `ContentMismatch` naming the
block's variant. -/
def Block.merge_deltas (b : Block) (deltas : List Delta) : Except DeltaError Block :=
  match deltas with
  | [] => .ok b
  | d :: rest =>
    match rest.foldlM Delta.merge d with
    | .error e => .error (.contentMismatch e)
    | .ok acc =>
      match b, acc with
      | .text t cc, .text d2 => .ok (.text (t ++ d2) cc)
      | .toolUse call, .json p =>
        match Json.parse p with
        | some v => .ok (.toolUse { call with input := v })
        | none => .error (.parse p)
      | b2, acc2 => .error (.contentMismatch ⟨acc2, b2.variantName⟩)

/-- Function `Block::cache` from `src/prompt/message.rs`: set the block's
`cache_control` to `Some(Ephemeral)`. -/
def Block.cache : Block → Block
  | .text t _ => .text t (some .ephemeral)
  | .image i _ => .image i (some .ephemeral)
  | .toolUse call => .toolUse { call with cache_control := some .ephemeral }
  | .toolResult (.mk tid ct ie _) => .toolResult (.mk tid ct ie (some .ephemeral))

/-- Method `Content::is_single_part` (derived `IsVariant` in the source). -/
def Content.is_single_part : Content → Bool
  | .singlePart _ => true
  | .multiPart _ => false

/-- Method `Content::is_multi_part` (derived `IsVariant` in the source). -/
def Content.is_multi_part : Content → Bool
  | .singlePart _ => false
  | .multiPart _ => true

/-- Promotion of a `SinglePart` to a `MultiPart` whose block 0 is the text as
a `Block::Text` with no cache marker.  This models the idiom shared by
`Content::push`, `Content::cache` and `Content::push_delta` in
`src/prompt/message.rs`: swap `self` with an empty `MultiPart`, then push
`old.unwrap_single_part()` (a `Block::Text { text, cache_control: None }`).
On a `MultiPart` the idiom does not run and the content is unchanged. -/
def Content.promote : Content → Content
  | .singlePart text => .multiPart [.text text none]
  | .multiPart parts => .multiPart parts

/-- Function `Content::push` from `src/prompt/message.rs`: promote a
`SinglePart` to `MultiPart` (text becomes block 0), then append the new
block. -/
def Content.push (c : Content) (b : Block) : Content :=
  match c with
  | .singlePart t => .multiPart [.text t none, b]
  | .multiPart parts => .multiPart (parts ++ [b])

/-- Cache-marking of the last block of a list (`parts.last_mut()` followed by
`block.cache()`); an empty list is left unchanged, as in the source. -/
def cacheLast : List Block → List Block
  | [] => []
  | [b] => [b.cache]
  | b :: rest => b :: cacheLast rest

/-- Function `Content::cache` from `src/prompt/message.rs`: promote a
`SinglePart`, then set a cache breakpoint on the final block. -/
def Content.cache : Content → Content
  | .singlePart t => .multiPart (cacheLast [.text t none])
  | .multiPart parts => .multiPart (cacheLast parts)

/-- Result of an operation that can panic: Rust's `unwrap` on `None` is
modelled by `panics`. -/
inductive PanicOr (α : Type) where
  | panics : PanicOr α
  | value (a : α) : PanicOr α
  deriving DecidableEq

/-- Delta application to the last block of a list, as in the `MultiPart` arm
of `Content::push_delta`: `parts.last_mut().unwrap().merge_deltas(once(delta))`.
On an empty list the source's `unwrap` panics. -/
def pushDeltaLast (parts : List Block) (d : Delta) : PanicOr (Except DeltaError (List Block)) :=
  match parts with
  | [] => .panics
  | [b] =>
    match b.merge_deltas [d] with
    | .ok b2 => .value (.ok [b2])
    | .error e => .value (.error e)
  | b :: rest =>
    match pushDeltaLast rest d with
    | .panics => .panics
    | .value (.ok rest2) => .value (.ok (b :: rest2))
    | .value (.error e) => .value (.error e)

/-- The `MultiPart` arm of `Content::push_delta`, rebuilding the content. -/
def pushDeltaMulti (parts : List Block) (d : Delta) : PanicOr (Except DeltaError Content) :=
  match pushDeltaLast parts d with
  | .panics => .panics
  | .value (.ok parts2) => .value (.ok (.multiPart parts2))
  | .value (.error e) => .value (.error e)

/-- Function `Content::push_delta` from `src/prompt/message.rs`: a
`SinglePart` is first promoted to `MultiPart` (text as block 0) and the call
recurses; on a `MultiPart` the delta is merged into the **last** block via
`Block::merge_deltas` — the function takes no index parameter.  The source
calls `parts.last_mut().unwrap()`, which panics when the `MultiPart` is
empty. -/
def Content.push_delta (c : Content) (d : Delta) : PanicOr (Except DeltaError Content) :=
  match c with
  | .singlePart t => pushDeltaMulti [.text t none] d
  | .multiPart parts => pushDeltaMulti parts d

/-- Enum `Role` from `src/prompt/message.rs`. -/
inductive Role where
  | user : Role
  | assistant : Role
  deriving DecidableEq

/-- Struct `prompt::Message` from `src/prompt/message.rs`: a role and its
content. -/
structure Prompt.Message where
  role : Role
  content : Content

/-- Enum `StopReason` from `src/response/message.rs`. -/
inductive StopReason where
  | endTurn : StopReason
  | maxTokens : StopReason
  | stopSequence : StopReason
  | toolUse : StopReason
  deriving DecidableEq

/-- Struct `Usage` from `src/response/message.rs` (cache counters of the
`prompt-caching` feature included). -/
structure Usage where
  input_tokens : Nat
  cache_creation_input_tokens : Option Nat
  cache_read_input_tokens : Option Nat
  output_tokens : Nat
  deriving DecidableEq

/-- Enum `AnthropicModel` from `src/model.rs`. -/
inductive AnthropicModel where
  | sonnet35 : AnthropicModel
  | sonnet35_20240620 : AnthropicModel
  | sonnet35_20241022 : AnthropicModel
  | opus30 : AnthropicModel
  | opus30_20240229 : AnthropicModel
  | sonnet30 : AnthropicModel
  | haiku35 : AnthropicModel
  | haiku35_20241022 : AnthropicModel
  | haiku30 : AnthropicModel
  deriving DecidableEq

/-- Enum `Model` from `src/model.rs`: a built-in Anthropic model or a custom
model name. -/
inductive Model where
  | anthropic (m : AnthropicModel) : Model
  | custom (name : String) : Model
  deriving DecidableEq

/-- Struct `response::Message` from `src/response/message.rs`: the inner
prompt message (serde-flattened in the source) plus response metadata. -/
structure Response.Message where
  id : String
  message : Prompt.Message
  model : Model
  stop_reason : Option StopReason
  stop_sequence : Option String
  usage : Usage

/-- Struct `MessageDelta` from `src/stream.rs`: message metadata only. -/
structure MessageDelta where
  stop_reason : Option StopReason
  stop_sequence : Option String
  usage : Option Usage
  deriving DecidableEq

/-- Function `Message::apply_delta` from `src/response/message.rs`: overwrite
`stop_reason` and `stop_sequence` with the delta's values, replace `usage`
only when the delta carries one, and leave every other field alone. -/
def Response.Message.apply_delta (m : Response.Message) (delta : MessageDelta) :
    Response.Message :=
  { m with
    stop_reason := delta.stop_reason
    stop_sequence := delta.stop_sequence
    usage :=
      match delta.usage with
      | some usage => usage
      | none => m.usage }

/-- Enum `Event` from `src/stream.rs`: the seven successful event shapes. -/
inductive Event where
  | ping : Event
  | messageStart (message : Response.Message) : Event
  | contentBlockStart (index : Nat) (content_block : Block) : Event
  | contentBlockDelta (index : Nat) (delta : Delta) : Event
  | contentBlockStop (index : Nat) : Event
  | messageDelta (delta : MessageDelta) : Event
  | messageStop : Event

/-- Enum `AnthropicError` from `src/client.rs`: the server-reported error
kinds, with `Unknown` carrying a non-zero status code. -/
inductive AnthropicError where
  | invalidRequest (message : String) : AnthropicError
  | authentication (message : String) : AnthropicError
  | permission (message : String) : AnthropicError
  | notFound (message : String) : AnthropicError
  | requestTooLarge (message : String) : AnthropicError
  | rateLimit (message : String) : AnthropicError
  | api (message : String) : AnthropicError
  | overloaded (message : String) : AnthropicError
  | unknown (code : Nat) (message : String) : AnthropicError
  deriving DecidableEq

/-- Struct `eventsource_stream::Event` (collaborator crate): one SSE frame
already split into an event name, a data string and an id. -/
structure SseEvent where
  event : String
  data : String
  id : String
  deriving DecidableEq

/-- Enum `stream::Error` from `src/stream.rs`: a transport failure (the
wrapped `eventsource_stream`/`reqwest` error is modelled as a `String`), a
JSON parse failure preserving the frame (the `serde_json` error is modelled
as the undecodable data string), or a server-reported error preserving the
frame. -/
inductive Stream.Error where
  | stream (error : String) : Stream.Error
  | parse (error : String) (event : SseEvent) : Stream.Error
  | anthropic (error : AnthropicError) (event : SseEvent) : Stream.Error

/-- Field lookup in a JSON object (first occurrence), as serde's map
deserialization reads struct fields. -/
def Json.getField (j : Json) (key : String) : Option Json :=
  match j with
  | .obj fields => fields.lookup key
  | _ => none

/-- String extraction from a JSON value. -/
def Json.asString : Json → Option String
  | .str s => some s
  | _ => none

/-- Non-negative integer extraction from a JSON value (serde `u64`/`usize`
deserialization rejects negative numbers). -/
def Json.asNat : Json → Option Nat
  | .num n => if 0 ≤ n then some n.toNat else none
  | _ => none

/-- Boolean extraction from a JSON value. -/
def Json.asBool : Json → Option Bool
  | .bool b => some b
  | _ => none

/-- Decoding of a serde `Option<T>` struct field: a missing field and an
explicit `null` both give `None`; a present value must decode. -/
def decodeOptField {α : Type} (j : Json) (key : String) (dec : Json → Option α) :
    Option (Option α) :=
  match j.getField key with
  | none => some none
  | some .null => some none
  | some v => (dec v).map some

/-- Decoding of `CacheControl` (tag `type`, variant `ephemeral`). -/
def decodeCacheControl (j : Json) : Option CacheControl :=
  match j.getField "type" with
  | some (.str "ephemeral") => some .ephemeral
  | _ => none

/-- Decoding of the optional `cache_control` field of a block. -/
def decodeCacheField (j : Json) : Option (Option CacheControl) :=
  decodeOptField j "cache_control" decodeCacheControl

/-- Decoding of `Role` (`rename_all = "snake_case"`). -/
def decodeRole (j : Json) : Option Role :=
  match j with
  | .str "user" => some .user
  | .str "assistant" => some .assistant
  | _ => none

/-- Decoding of `StopReason` (`rename_all = "snake_case"`). -/
def decodeStopReason (j : Json) : Option StopReason :=
  match j with
  | .str "end_turn" => some .endTurn
  | .str "max_tokens" => some .maxTokens
  | .str "stop_sequence" => some .stopSequence
  | .str "tool_use" => some .toolUse
  | _ => none

/-- Decoding of `Usage` (`input_tokens` and `output_tokens` required, cache
counters optional). -/
def decodeUsage (j : Json) : Option Usage :=
  match (j.getField "input_tokens").bind Json.asNat,
      (j.getField "output_tokens").bind Json.asNat,
      decodeOptField j "cache_creation_input_tokens" Json.asNat,
      decodeOptField j "cache_read_input_tokens" Json.asNat with
  | some it, some ot, some ccr, some crd => some ⟨it, ccr, crd, ot⟩
  | _, _, _, _ => none

/-- Decoding of `AnthropicModel` by its serde rename strings. -/
def decodeAnthropicModel (s : String) : Option AnthropicModel :=
  if s = "claude-3-5-sonnet-latest" then some .sonnet35
  else if s = "claude-3-5-sonnet-20240620" then some .sonnet35_20240620
  else if s = "claude-3-5-sonnet-20241022" then some .sonnet35_20241022
  else if s = "claude-3-opus-latest" then some .opus30
  else if s = "claude-3-opus-20240229" then some .opus30_20240229
  else if s = "claude-3-sonnet-20240229" then some .sonnet30
  else if s = "claude-3-5-haiku-latest" then some .haiku35
  else if s = "claude-3-5-haiku-20241022" then some .haiku35_20241022
  else if s = "claude-3-haiku-20240307" ∨ s = "claude-3-haiku-latest" then some .haiku30
  else none

/-- Decoding of `Model` (untagged: a known Anthropic model string, else any
string as a custom model; non-strings fail). -/
def decodeModel (j : Json) : Option Model :=
  match j with
  | .str s =>
    match decodeAnthropicModel s with
    | some m => some (.anthropic m)
    | none => some (.custom s)
  | _ => none

/-- Decoding of `Delta` (tag `type`: variant `text` with serde alias
`text_delta`, and variant `input_json_delta`). -/
def decodeDelta (j : Json) : Option Delta :=
  match j.getField "type" with
  | some (.str tag) =>
    if tag = "text" ∨ tag = "text_delta" then
      ((j.getField "text").bind Json.asString).map .text
    else if tag = "input_json_delta" then
      ((j.getField "partial_json").bind Json.asString).map .json
    else none
  | _ => none

/-- Decoding of `Image` (tag `type`, variant `base64` with `source` renamed
media types). -/
def decodeImage (j : Json) : Option Image :=
  match j.getField "type" with
  | some (.str "base64") =>
    match (j.getField "media_type").bind Json.asString,
        (j.getField "data").bind Json.asString with
    | some mt, some d =>
      if mt = "image/jpeg" then some (.base64 .jpeg d)
      else if mt = "image/png" then some (.base64 .png d)
      else if mt = "image/gif" then some (.base64 .gif d)
      else if mt = "image/webp" then some (.base64 .webp d)
      else none
    | _, _ => none
  | _ => none

mutual

/-- Decoding of `Block` (tag `type`: `text` with alias `text_delta`,
`image`, `tool_use` with a flattened `tool::Use`, `tool_result` with a
flattened `tool::Result`).  The fuel bounds JSON nesting depth. -/
def decodeBlock : Nat → Json → Option Block
  | 0, _ => none
  | fuel + 1, j =>
    match j.getField "type" with
    | some (.str tag) =>
      if tag = "text" ∨ tag = "text_delta" then
        match (j.getField "text").bind Json.asString, decodeCacheField j with
        | some t, some cc => some (.text t cc)
        | _, _ => none
      else if tag = "image" then
        match (j.getField "source").bind decodeImage, decodeCacheField j with
        | some i, some cc => some (.image i cc)
        | _, _ => none
      else if tag = "tool_use" then
        match (j.getField "id").bind Json.asString,
            (j.getField "name").bind Json.asString,
            j.getField "input", decodeCacheField j with
        | some i, some n, some inp, some cc => some (.toolUse ⟨i, n, inp, cc⟩)
        | _, _, _, _ => none
      else if tag = "tool_result" then
        match (j.getField "tool_use_id").bind Json.asString,
            (j.getField "content").bind (decodeContent fuel),
            (j.getField "is_error").bind Json.asBool, decodeCacheField j with
        | some tid, some ct, some ie, some cc =>
          some (.toolResult (.mk tid ct ie cc))
        | _, _, _, _ => none
      else none
    | _ => none

/-- Decoding of `Content` (untagged: a bare string is `SinglePart`, an array
of blocks is `MultiPart`). -/
def decodeContent : Nat → Json → Option Content
  | 0, _ => none
  | fuel + 1, j =>
    match j with
    | .str s => some (.singlePart s)
    | .arr elems => (elems.mapM (decodeBlock fuel)).map .multiPart
    | _ => none

end

mutual

/-- Depth bound used as decoder fuel: the constructor count of the value. -/
def Json.fuel : Json → Nat
  | .null => 1
  | .bool _ => 1
  | .num _ => 1
  | .str _ => 1
  | .arr elems => Json.fuelList elems + 1
  | .obj fields => Json.fuelFields fields + 1

/-- Constructor count of a list of JSON values. -/
def Json.fuelList : List Json → Nat
  | [] => 0
  | j :: rest => Json.fuel j + Json.fuelList rest

/-- Constructor count of a list of JSON object fields. -/
def Json.fuelFields : List (String × Json) → Nat
  | [] => 0
  | (_, j) :: rest => Json.fuel j + Json.fuelFields rest

end

/-- Decoding of `response::Message`: required `id`, flattened `role` and
`content`, required `model` and `usage`, optional `stop_reason` and
`stop_sequence`.  Unknown fields (such as the wire's `"type": "message"`)
are ignored, as serde does. -/
def decodeResponseMessage (j : Json) : Option Response.Message :=
  match (j.getField "id").bind Json.asString,
      (j.getField "role").bind decodeRole,
      (j.getField "content").bind (fun c => decodeContent c.fuel c),
      (j.getField "model").bind decodeModel,
      decodeOptField j "stop_reason" decodeStopReason,
      decodeOptField j "stop_sequence" Json.asString,
      (j.getField "usage").bind decodeUsage with
  | some i, some r, some c, some mo, some sr, some ss, some u =>
    some ⟨i, ⟨r, c⟩, mo, sr, ss, u⟩
  | _, _, _, _, _, _, _ => none

/-- Decoding of `MessageDelta` (all three fields optional). -/
def decodeMessageDelta (j : Json) : Option MessageDelta :=
  match decodeOptField j "stop_reason" decodeStopReason,
      decodeOptField j "stop_sequence" Json.asString,
      decodeOptField j "usage" decodeUsage with
  | some sr, some ss, some u => some ⟨sr, ss, u⟩
  | _, _, _ => none

/-- Decoding of `Event` (internally tagged by `type`, `rename_all =
"snake_case"`): the seven event shapes.  As with serde's internally tagged
enums, fields other than the ones a variant reads are ignored. -/
def decodeEvent (j : Json) : Option Event :=
  match j.getField "type" with
  | some (.str tag) =>
    if tag = "ping" then some .ping
    else if tag = "message_start" then
      ((j.getField "message").bind decodeResponseMessage).map .messageStart
    else if tag = "content_block_start" then
      match (j.getField "index").bind Json.asNat,
          (j.getField "content_block").bind (fun b => decodeBlock b.fuel b) with
      | some i, some b => some (.contentBlockStart i b)
      | _, _ => none
    else if tag = "content_block_delta" then
      match (j.getField "index").bind Json.asNat,
          (j.getField "delta").bind decodeDelta with
      | some i, some d => some (.contentBlockDelta i d)
      | _, _ => none
    else if tag = "content_block_stop" then
      ((j.getField "index").bind Json.asNat).map .contentBlockStop
    else if tag = "message_delta" then
      ((j.getField "delta").bind decodeMessageDelta).map .messageDelta
    else if tag = "message_stop" then some .messageStop
    else none
  | _ => none

/-- Decoding of `AnthropicError` (tag `type` with the serde renames from
`src/client.rs`; `Unknown` requires a non-zero `u16` code). -/
def decodeAnthropicError (j : Json) : Option AnthropicError :=
  match j.getField "type" with
  | some (.str tag) =>
    let msg := (j.getField "message").bind Json.asString
    if tag = "invalid_request_error" then msg.map .invalidRequest
    else if tag = "authentication_error" then msg.map .authentication
    else if tag = "permission_error" then msg.map .permission
    else if tag = "not_found_error" then msg.map .notFound
    else if tag = "request_too_large" then msg.map .requestTooLarge
    else if tag = "rate_limit_error" then msg.map .rateLimit
    else if tag = "api_error" then msg.map .api
    else if tag = "overloaded_error" then msg.map .overloaded
    else if tag = "unknown" then
      match (j.getField "code").bind Json.asNat, msg with
      | some code, some m =>
        if 0 < code ∧ code < 65536 then some (.unknown code m) else none
      | _, _ => none
    else none
  | _ => none

/-- Enum `ApiResult` from `src/stream.rs`: the internal untagged union of a
successful (flattened) `Event` and a server error wrapped under an `error`
key. -/
inductive ApiResult where
  | event (event : Event) : ApiResult
  | error (error : AnthropicError) : ApiResult

/-- Decoding of `ApiResult`.  The source enum is `#[serde(untagged)]` with
the `Event` variant declared **first**, so serde tries the seven event
shapes first and falls back to the error envelope. -/
def decodeApiResult (j : Json) : Option ApiResult :=
  match decodeEvent j with
  | some e => some (.event e)
  | none =>
    match (j.getField "error").bind decodeAnthropicError with
    | some err => some (.error err)
    | none => none

/-- Modelled from the spec: a decoder that, as §4.3 and §9 of the spec
describe the decoding contract, first attempts the narrower error envelope
(`{ "error": { "type": ..., "message": ... } }`) and only on failure falls
back to the `Event` union.  Defined for comparison with `decodeApiResult`,
which is translated from the source. -/
def specDecodeApiResult (j : Json) : Option ApiResult :=
  match (j.getField "error").bind decodeAnthropicError with
  | some err => some (.error err)
  | none => (decodeEvent j).map .event

/-- Item mapping inside `Stream::new` (`src/stream.rs`): parse the frame's
data as JSON and decode an `ApiResult`; a successful event is yielded as
`Ok`, a decoded error envelope as `Error::Anthropic` carrying the frame, and
a parse or decode failure as `Error::Parse` carrying the frame. -/
def decodeFrame (frame : SseEvent) : Except Stream.Error Event :=
  match Json.parse frame.data with
  | none => .error (.parse frame.data frame)
  | some j =>
    match decodeApiResult j with
    | some (.event e) => .ok e
    | some (.error err) => .error (.anthropic err frame)
    | none => .error (.parse frame.data frame)

/-- Function `Stream::new` from `src/stream.rs`, with the lazily pulled
stream modelled as the list of items it yields in order: each incoming frame
is decoded with `decodeFrame` and each transport error is wrapped as
`Error::Stream`. -/
def Stream.new (items : List (Except String SseEvent)) :
    List (Except Stream.Error Event) :=
  items.map fun r =>
    match r with
    | .ok frame => decodeFrame frame
    | .error e => .error (.stream e)

/-- Item type of the decoded event stream. -/
abbrev Item := Except Stream.Error Event

/-- Method `FilterExt::filter_rate_limit` from `src/stream.rs`: drop
`Error::Anthropic` items whose server error is `Overloaded` or `RateLimit`;
every other item passes through. -/
def FilterExt.filter_rate_limit (l : List Item) : List Item :=
  l.filterMap fun r =>
    match r with
    | .ok e => some (.ok e)
    | .error (.anthropic (.overloaded _) _) => none
    | .error (.anthropic (.rateLimit _) _) => none
    | .error e => some (.error e)

/-- Method `FilterExt::deltas` from `src/stream.rs`: keep only the `delta`
payloads of successful `ContentBlockDelta` items; the wildcard arm drops
every other item, error items included. -/
def FilterExt.deltas (l : List Item) : List (Except Stream.Error Delta) :=
  l.filterMap fun r =>
    match r with
    | .ok (.contentBlockDelta _ d) => some (.ok d)
    | _ => none

/-- Method `FilterExt::text` from `src/stream.rs`: narrow `deltas` to the
payloads of `Delta::Text`; the wildcard arm drops every other item. -/
def FilterExt.text (l : List Item) : List (Except Stream.Error String) :=
  (FilterExt.deltas l).filterMap fun r =>
    match r with
    | .ok (.text t) => some (.ok t)
    | _ => none

/-- Classification of an item as a server-reported transient error: exactly
the `Error::Anthropic` items carrying `Overloaded` or `RateLimit`, the two
kinds `filter_rate_limit` names. -/
def isTransientItem : Item → Bool
  | .error (.anthropic (.overloaded _) _) => true
  | .error (.anthropic (.rateLimit _) _) => true
  | _ => false

/-- Helper lemma: rebuilding a delta from its own variant and payload is the
identity. -/
theorem Delta.mkDelta_variant_payload (d : Delta) :
    d.variant.mkDelta d.payload = d := by
  cases d <;> rfl

/-- Helper lemma: the variant name of a delta is the name of its variant
tag. -/
theorem Delta.variantName_eq (d : Delta) : d.variantName = d.variant.name := by
  cases d <;> rfl

/-- Helper lemma: merging two same-variant deltas concatenates their
payloads. -/
theorem Delta.merge_same (d₁ d₂ : Delta) (h : d₁.variant = d₂.variant) :
    d₁.merge d₂ = .ok (d₁.variant.mkDelta (d₁.payload ++ d₂.payload)) := by
  cases d₁ <;> cases d₂ <;> simp_all [Delta.variant, Delta.merge,
    DeltaVariant.mkDelta, Delta.payload]

/-- Helper lemma: merging two different-variant deltas reports a mismatch
with `from` the incoming delta and `to` the receiver's variant name. -/
theorem Delta.merge_mismatch (d₁ d₂ : Delta) (h : d₁.variant ≠ d₂.variant) :
    d₁.merge d₂ = .error ⟨d₂, d₁.variantName⟩ := by
  cases d₁ <;> cases d₂ <;> simp_all [Delta.variant, Delta.merge,
    Delta.variantName]

/-- Helper lemma: a rebuilt delta carries the variant it was built from. -/
theorem DeltaVariant.mkDelta_variant (v : DeltaVariant) (s : String) :
    (v.mkDelta s).variant = v := by
  cases v <;> rfl

/-- Helper lemma: a rebuilt delta carries the payload it was built from. -/
theorem DeltaVariant.mkDelta_payload (v : DeltaVariant) (s : String) :
    (v.mkDelta s).payload = s := by
  cases v <;> rfl

/-- Helper lemma: string concatenation distributes over `List.foldl` of
concatenation. -/
theorem String.foldl_append_eq (l : List String) (a b : String) :
    l.foldl (· ++ ·) (a ++ b) = a ++ l.foldl (· ++ ·) b := by
  induction l generalizing b with
  | nil => rfl
  | cons c rest ih =>
    simp only [List.foldl_cons, String.append_assoc]
    exact ih (b ++ c)

/-- Helper lemma: `String.join` of a cons. -/
theorem String.join_cons_eq (s : String) (l : List String) :
    String.join (s :: l) = s ++ String.join l := by
  show (s :: l).foldl (· ++ ·) "" = s ++ l.foldl (· ++ ·) ""
  rw [List.foldl_cons, String.empty_append,
    show s = s ++ "" from (String.append_empty s).symm,
    String.foldl_append_eq]
  simp [String.append_empty]

/-- Helper lemma: left-folding `Delta::merge` over deltas that all share the
accumulator's variant concatenates every payload onto the accumulator, in
order. -/
theorem Delta.foldlM_merge_same (ds : List Delta) (v : DeltaVariant)
    (p : String) (h : ∀ x ∈ ds, x.variant = v) :
    ds.foldlM Delta.merge (v.mkDelta p) =
      .ok (v.mkDelta (p ++ String.join (ds.map Delta.payload))) := by
  induction ds generalizing p with
  | nil =>
    simp only [List.foldlM_nil, List.map_nil]
    rw [show String.join [] = "" from rfl, String.append_empty]
    rfl
  | cons x rest ih =>
    have hx : x.variant = v := h x (by simp)
    have hmerge : (v.mkDelta p).merge x =
        .ok (v.mkDelta (p ++ x.payload)) := by
      rw [Delta.merge_same _ _ (by rw [DeltaVariant.mkDelta_variant, hx]),
        DeltaVariant.mkDelta_variant, DeltaVariant.mkDelta_payload]
    rw [List.foldlM_cons, hmerge]
    show rest.foldlM Delta.merge (v.mkDelta (p ++ x.payload)) = _
    rw [ih (p ++ x.payload) (fun y hy => h y (by simp [hy]))]
    rw [List.map_cons, String.join_cons_eq, String.append_assoc]

/-- Helper lemma: left-folding `Delta::merge` stops at the first delta whose
variant differs from the accumulator's, reporting that delta and the
accumulator's variant name. -/
theorem Delta.foldlM_merge_firstMismatch (pre : List Delta) (x : Delta)
    (suf : List Delta) (v : DeltaVariant) (p : String)
    (hpre : ∀ y ∈ pre, y.variant = v) (hx : x.variant ≠ v) :
    (pre ++ x :: suf).foldlM Delta.merge (v.mkDelta p) =
      .error ⟨x, v.name⟩ := by
  induction pre generalizing p with
  | nil =>
    have hmerge : (v.mkDelta p).merge x = .error ⟨x, (v.mkDelta p).variantName⟩ :=
      Delta.merge_mismatch _ _ (by rw [DeltaVariant.mkDelta_variant]; exact fun hv => hx hv.symm)
    rw [List.nil_append, List.foldlM_cons, hmerge]
    have hname : (v.mkDelta p).variantName = v.name := by
      rw [Delta.variantName_eq, DeltaVariant.mkDelta_variant]
    rw [hname]
    rfl
  | cons y rest ih =>
    have hy : y.variant = v := hpre y (by simp)
    have hmerge : (v.mkDelta p).merge y = .ok (v.mkDelta (p ++ y.payload)) := by
      rw [Delta.merge_same _ _ (by rw [DeltaVariant.mkDelta_variant, hy]),
        DeltaVariant.mkDelta_variant, DeltaVariant.mkDelta_payload]
    rw [List.cons_append, List.foldlM_cons, hmerge]
    exact ih (p ++ y.payload) (fun z hz => hpre z (by simp [hz]))

/-- C3: evaluation of the code at the failing input.  Applying a delta to an
empty `MultiPart` content panics — the source unwraps `parts.last_mut()` on
an empty `Vec` — instead of returning a reported error such as `OutOfBounds`
naming the index (the `OutOfBounds` error type exists in `src/stream.rs` but
is never constructed). -/
theorem push_delta_empty_multipart_panics :
    Content.push_delta (.multiPart []) (.text "hi") = .panics := rfl

/-- C4: left-folding `Delta::merge` over a non-empty sequence `d :: ds` of
same-variant deltas yields a delta of that variant whose payload is the
ordered concatenation of all the payloads; a fold over a sequence whose
prefix agrees with the initial variant and then hits a delta `x` of a
different variant returns the `ContentMismatch` naming that first
conflicting pair (`from` is `x`, `to` names the initial variant). -/
theorem delta_merge_fold_spec :
    (∀ (d : Delta) (ds : List Delta), (∀ x ∈ ds, x.variant = d.variant) →
      ds.foldlM Delta.merge d =
        .ok (d.variant.mkDelta (String.join ((d :: ds).map Delta.payload)))) ∧
    (∀ (d x : Delta) (pre suf : List Delta),
      (∀ y ∈ pre, y.variant = d.variant) → x.variant ≠ d.variant →
      (pre ++ x :: suf).foldlM Delta.merge d = .error ⟨x, d.variantName⟩) := by
  constructor
  · intro d ds h
    have hsame := Delta.foldlM_merge_same ds d.variant d.payload h
    rw [Delta.mkDelta_variant_payload] at hsame
    rw [hsame, List.map_cons, String.join_cons_eq]
  · intro d x pre suf hpre hx
    have hmis := Delta.foldlM_merge_firstMismatch pre x suf d.variant
      d.payload hpre hx
    rw [Delta.mkDelta_variant_payload] at hmis
    rw [hmis, Delta.variantName_eq]

/-- Witness: C4 at concrete inputs — the three-fragment text merge from the
source's own test data, and a mixed-variant fold failing at its first
conflicting delta. -/
theorem delta_merge_fold_spec_witness :
    ((∀ x ∈ [Delta.text " can", Delta.text " do"],
        x.variant = (Delta.text "Certainly! I").variant) ∧
      [Delta.text " can", Delta.text " do"].foldlM Delta.merge
          (Delta.text "Certainly! I") = .ok (.text "Certainly! I can do")) ∧
    (([] ++ Delta.text "y" :: []).foldlM Delta.merge (Delta.json "x") =
      .error ⟨.text "y", "Delta::Json"⟩) := by
  refine ⟨⟨by decide, ?_⟩, ?_⟩
  · exact (delta_merge_fold_spec.1 (Delta.text "Certainly! I")
      [Delta.text " can", Delta.text " do"] (by decide)).trans rfl
  · exact (delta_merge_fold_spec.2 (Delta.json "x") (Delta.text "y") [] []
      (by intro y hy; cases hy) (by decide)).trans rfl

/-- C5: merging a delta of an incompatible shape into a block — a JSON delta
onto a `Text` block, a text delta onto a `ToolUse` block, or any delta onto
an `Image` or `ToolResult` block — returns a `ContentMismatch` naming the
block's variant (and, the embedding being total, never panics). -/
theorem merge_deltas_mismatch_spec :
    (∀ (t : String) (cc : Option CacheControl) (p : String),
      (Block.text t cc).merge_deltas [.json p] =
        .error (.contentMismatch ⟨.json p, "Block::Text"⟩)) ∧
    (∀ (call : Tool.Use) (s : String),
      (Block.toolUse call).merge_deltas [.text s] =
        .error (.contentMismatch ⟨.text s, "Block::ToolUse"⟩)) ∧
    (∀ (i : Image) (cc : Option CacheControl) (d : Delta),
      (Block.image i cc).merge_deltas [d] =
        .error (.contentMismatch ⟨d, "Block::Image"⟩)) ∧
    (∀ (r : ToolResult) (d : Delta),
      (Block.toolResult r).merge_deltas [d] =
        .error (.contentMismatch ⟨d, "Block::ToolResult"⟩)) := by
  refine ⟨fun t cc p => rfl, fun call s => rfl,
    fun i cc d => ?_, fun r d => ?_⟩ <;> cases d <;> rfl

/-- C6 counterexample: the claim quantifies over **every** sequence of JSON
deltas, but `Block::merge_deltas` treats an empty sequence as a no-op — it
returns the block unchanged — whereas parsing the (empty) concatenated
fragment fails, so the claim would demand a `DeltaError::Parse` there. -/
theorem merge_deltas_empty_noop :
    (Block.toolUse ⟨"tool_123", "tool", .obj [("old", .num 1)], none⟩).merge_deltas
        [] = .ok (.toolUse ⟨"tool_123", "tool", .obj [("old", .num 1)], none⟩) ∧
    Json.parse "" = none :=
  ⟨rfl, rfl⟩

/-- C6 as amended: for every `ToolUse` block and every **non-empty** sequence
of JSON deltas, `merge_deltas` replaces the block's `input` with the value
obtained by parsing the concatenation of the fragments from scratch, and
returns `DeltaError::Parse` when that concatenation is not valid JSON. -/
theorem tool_use_json_replace_spec :
    ∀ (call : Tool.Use) (fs : List String), fs ≠ [] →
      (Block.toolUse call).merge_deltas (fs.map Delta.json) =
        match Json.parse (String.join fs) with
        | some v => .ok (.toolUse { call with input := v })
        | none => .error (.parse (String.join fs)) := by
  intro call fs hne
  cases fs with
  | nil => exact absurd rfl hne
  | cons f rest =>
    have hpayload : (rest.map Delta.json).map Delta.payload = rest := by
      rw [List.map_map,
        show (Delta.payload ∘ Delta.json) = id from funext (fun s => rfl),
        List.map_id]
    have hfold := Delta.foldlM_merge_same (rest.map Delta.json)
      DeltaVariant.json f
      (by intro x hx; obtain ⟨s, hs, rfl⟩ := List.mem_map.mp hx; rfl)
    rw [hpayload] at hfold
    have hfold2 : (rest.map Delta.json).foldlM Delta.merge (Delta.json f) =
        .ok (Delta.json (String.join (f :: rest))) := by
      rw [String.join_cons_eq]
      exact hfold
    simp only [List.map_cons, Block.merge_deltas, hfold2]

/-- Witness: C6 (amended) at the concrete two-fragment example from the
source's own tests: `{"key":` then `"value"}` replaces the input with the
parsed object. -/
theorem tool_use_json_replace_spec_witness :
    (["\x7b\"key\":", "\"value\"\x7d"] : List String) ≠ [] ∧
    (Block.toolUse ⟨"tool_123", "tool", .obj [], none⟩).merge_deltas
        (["\x7b\"key\":", "\"value\"\x7d"].map Delta.json) =
      .ok (.toolUse ⟨"tool_123", "tool", .obj [("key", .str "value")], none⟩) := by
  refine ⟨by simp, ?_⟩
  exact (tool_use_json_replace_spec ⟨"tool_123", "tool", .obj [], none⟩
    ["\x7b\"key\":", "\"value\"\x7d"] (by simp)).trans rfl

/-- C8: `Message::apply_delta` updates only the metadata — `stop_reason` and
`stop_sequence` are overwritten with the delta's values and `usage` is
replaced only when the delta carries one — while `id`, `model`, and the
inner message (its `role` and `content`) are unchanged. -/
theorem apply_delta_spec :
    ∀ (m : Response.Message) (d : MessageDelta),
      (m.apply_delta d).id = m.id ∧
      (m.apply_delta d).message = m.message ∧
      (m.apply_delta d).message.role = m.message.role ∧
      (m.apply_delta d).message.content = m.message.content ∧
      (m.apply_delta d).model = m.model ∧
      (m.apply_delta d).stop_reason = d.stop_reason ∧
      (m.apply_delta d).stop_sequence = d.stop_sequence ∧
      (m.apply_delta d).usage = d.usage.getD m.usage := by
  intro m d
  obtain ⟨i, msg, mo, sr, ss, u⟩ := m
  obtain ⟨dsr, dss, du⟩ := d
  refine ⟨rfl, rfl, rfl, rfl, rfl, rfl, rfl, ?_⟩
  cases du <;> rfl

/-- Helper lemma: when the `MultiPart` arm of `push_delta` succeeds, the
result is a `MultiPart`. -/
theorem pushDeltaMulti_ok_multi (parts : List Block) (d : Delta)
    (c' : Content) (h : pushDeltaMulti parts d = .value (.ok c')) :
    c'.is_multi_part = true := by
  unfold pushDeltaMulti at h
  cases hls : pushDeltaLast parts d with
  | panics => rw [hls] at h; cases h
  | value r =>
    cases r with
    | ok ps =>
      rw [hls] at h
      injection h with h1
      injection h1 with h2
      rw [← h2]
      rfl
    | error e => rw [hls] at h; cases h

/-- C9: the first mutating operation on a `SinglePart` with text `t` —
`push`, `cache`, or `push_delta` — factors through promotion to a
`MultiPart` whose block 0 is a `Text` block holding exactly `t` (followed in
order by a newly pushed block, for `push`); and no operation ever takes a
`MultiPart` back to `SinglePart`. -/
theorem content_promotion_spec :
    (∀ t : String, Content.promote (.singlePart t) = .multiPart [.text t none]) ∧
    (∀ (t : String) (b : Block),
      Content.push (.singlePart t) b =
          Content.push (Content.promote (.singlePart t)) b ∧
        Content.push (.singlePart t) b = .multiPart [.text t none, b]) ∧
    (∀ t : String,
      Content.cache (.singlePart t) =
          Content.cache (Content.promote (.singlePart t)) ∧
        Content.cache (.singlePart t) =
          .multiPart [.text t (some .ephemeral)]) ∧
    (∀ (t : String) (d : Delta),
      Content.push_delta (.singlePart t) d =
        Content.push_delta (Content.promote (.singlePart t)) d) ∧
    (∀ (c : Content) (b : Block), (Content.push c b).is_multi_part = true) ∧
    (∀ c : Content, (Content.cache c).is_multi_part = true) ∧
    (∀ (c : Content) (d : Delta) (c' : Content),
      Content.push_delta c d = .value (.ok c') → c'.is_multi_part = true) := by
  refine ⟨fun t => rfl, fun t b => ⟨rfl, rfl⟩, fun t => ⟨rfl, rfl⟩,
    fun t d => rfl, fun c b => ?_, fun c => ?_, fun c d c' h => ?_⟩
  · cases c <;> rfl
  · cases c <;> rfl
  · cases c with
    | singlePart t => exact pushDeltaMulti_ok_multi _ d c' h
    | multiPart parts => exact pushDeltaMulti_ok_multi parts d c' h

/-- Witness: C9 at a concrete input — a successful delta application to a
one-block `MultiPart` yields a `MultiPart`. -/
theorem content_promotion_spec_witness :
    (Content.multiPart [Block.text "ab" none]).is_multi_part = true :=
  content_promotion_spec.2.2.2.2.2.2 (.multiPart [.text "a" none])
    (.text "b") (.multiPart [.text "ab" none]) rfl

/-- Helper lemma: `pushDeltaLast` merges the delta into the last block of a
non-empty list and keeps every earlier block (`dropLast`) unchanged. -/
theorem pushDeltaLast_eq (parts : List Block) (h : parts ≠ []) (d : Delta) :
    pushDeltaLast parts d =
      match (parts.getLast h).merge_deltas [d] with
      | .ok b => .value (.ok (parts.dropLast ++ [b]))
      | .error e => .value (.error e) := by
  induction parts with
  | nil => exact absurd rfl h
  | cons x xs ih =>
    cases xs with
    | nil =>
      show (match x.merge_deltas [d] with
        | .ok b2 => PanicOr.value (Except.ok [b2])
        | .error e => PanicOr.value (Except.error e)) = _
      cases hm : x.merge_deltas [d] <;> simp [List.getLast, hm]
    | cons y rest =>
      have hyr : (y :: rest : List Block) ≠ [] := by simp
      show (match pushDeltaLast (y :: rest) d with
        | .panics => PanicOr.panics
        | .value (.ok rest2) => PanicOr.value (Except.ok (x :: rest2))
        | .value (.error e) => PanicOr.value (Except.error e)) = _
      rw [ih hyr]
      have hlast : (x :: y :: rest).getLast h = (y :: rest).getLast hyr := rfl
      have hdrop : (x :: y :: rest).dropLast = x :: (y :: rest).dropLast := rfl
      rw [hlast, hdrop]
      cases hm : ((y :: rest).getLast hyr).merge_deltas [d] <;> simp [hm]

/-- C10: on a non-empty `MultiPart`, `push_delta` merges the delta into the
**last** block and leaves every other block (`dropLast`) unchanged; the
operation takes no index parameter, so the target block is determined by
position alone, independent of the index carried by the
`ContentBlockDelta` event. -/
theorem push_delta_last_block_spec (parts : List Block) (h : parts ≠ [])
    (d : Delta) :
    Content.push_delta (.multiPart parts) d =
      match (parts.getLast h).merge_deltas [d] with
      | .ok b => .value (.ok (.multiPart (parts.dropLast ++ [b])))
      | .error e => .value (.error e) := by
  show pushDeltaMulti parts d = _
  unfold pushDeltaMulti
  rw [pushDeltaLast_eq parts h d]
  cases hm : (parts.getLast h).merge_deltas [d] <;> simp [hm]

/-- Witness: C10 at a concrete two-block `MultiPart` — the text delta lands
on the last block and block 0 is untouched. -/
theorem push_delta_last_block_spec_witness :
    ([Block.text "a" none, Block.text "b" none] : List Block) ≠ [] ∧
    Content.push_delta (.multiPart [.text "a" none, .text "b" none])
        (.text "!") =
      .value (.ok (.multiPart [.text "a" none, .text "b!" none])) := by
  refine ⟨by simp, ?_⟩
  exact (push_delta_last_block_spec [.text "a" none, .text "b" none]
    (by simp) (.text "!")).trans rfl

/-- C1 counterexample: an error item that neither projection names as
filtered — here a parse error — is present in the input yet absent from the
output of `deltas` (both projections drop **every** error item through their
wildcard match arm), so the projections do not propagate unfiltered error
items. -/
theorem deltas_drops_error_item :
    (Except.error (Stream.Error.parse "bogus" ⟨"message", "bogus", ""⟩) ∈
      ([Except.error (Stream.Error.parse "bogus" ⟨"message", "bogus", ""⟩)] :
        List Item)) ∧
    FilterExt.deltas
        [Except.error (Stream.Error.parse "bogus" ⟨"message", "bogus", ""⟩)] =
      [] ∧
    FilterExt.text
        [Except.error (Stream.Error.parse "bogus" ⟨"message", "bogus", ""⟩)] =
      [] :=
  ⟨List.mem_singleton.mpr rfl, rfl, rfl⟩

/-- C1 as amended: both projections are order-preserving filters — they
distribute over append, forward exactly the delta payloads of successful
`ContentBlockDelta` items (for `text`, only the `Text` payloads), and drop
every other item, error items included. -/
theorem deltas_text_projection_spec :
    (∀ xs ys : List Item,
      FilterExt.deltas (xs ++ ys) = FilterExt.deltas xs ++ FilterExt.deltas ys) ∧
    (∀ xs ys : List Item,
      FilterExt.text (xs ++ ys) = FilterExt.text xs ++ FilterExt.text ys) ∧
    (∀ (i : Nat) (d : Delta),
      FilterExt.deltas [.ok (.contentBlockDelta i d)] = [.ok d]) ∧
    (∀ e : Event, (∀ i d, e ≠ .contentBlockDelta i d) →
      FilterExt.deltas [.ok e] = []) ∧
    (∀ err : Stream.Error, FilterExt.deltas [.error err] = []) ∧
    (∀ (i : Nat) (t : String),
      FilterExt.text [.ok (.contentBlockDelta i (.text t))] = [.ok t]) ∧
    (∀ (i : Nat) (p : String),
      FilterExt.text [.ok (.contentBlockDelta i (.json p))] = []) ∧
    (∀ err : Stream.Error, FilterExt.text [.error err] = []) := by
  refine ⟨fun xs ys => List.filterMap_append xs ys _, fun xs ys => ?_,
    fun i d => rfl, fun e he => ?_, fun err => rfl, fun i t => rfl,
    fun i p => rfl, fun err => rfl⟩
  · show (FilterExt.deltas (xs ++ ys)).filterMap _ = _
    rw [show FilterExt.deltas (xs ++ ys) =
        FilterExt.deltas xs ++ FilterExt.deltas ys from
      List.filterMap_append xs ys _]
    exact List.filterMap_append _ _ _
  · cases e <;> try rfl
    exact absurd rfl (he _ _)

/-- Witness: C1 (amended) at concrete inputs — a non-delta event such as
`Ping` is dropped, and an append of two concrete item lists splits. -/
theorem deltas_text_projection_spec_witness :
    FilterExt.deltas [Except.ok Event.ping] = [] ∧
    FilterExt.deltas
        ([Except.ok (Event.contentBlockDelta 0 (.text "a"))] ++
          [Except.ok Event.messageStop]) =
      FilterExt.deltas [Except.ok (Event.contentBlockDelta 0 (.text "a"))] ++
        FilterExt.deltas [Except.ok Event.messageStop] :=
  ⟨deltas_text_projection_spec.2.2.2.1 Event.ping
      (fun i d h => by cases h),
    deltas_text_projection_spec.1 _ _⟩

/-- C7: `filter_rate_limit` is exactly the order-preserving filter that drops
an item precisely when it is a server-reported transient error (`Overloaded`
or `RateLimit`) and forwards every other item unchanged; hence it is
idempotent. -/
theorem filter_rate_limit_spec :
    (∀ l : List Item,
      FilterExt.filter_rate_limit l = l.filter (fun x => ! isTransientItem x)) ∧
    (∀ l : List Item,
      FilterExt.filter_rate_limit (FilterExt.filter_rate_limit l) =
        FilterExt.filter_rate_limit l) := by
  have hpt : ∀ l : List Item,
      FilterExt.filter_rate_limit l = l.filter (fun x => ! isTransientItem x) := by
    intro l
    induction l with
    | nil => rfl
    | cons x xs ih =>
      show List.filterMap _ (x :: xs) = _
      rw [List.filterMap_cons, List.filter_cons]
      have ih2 : List.filterMap _ xs = xs.filter (fun x => ! isTransientItem x) := ih
      rw [ih2]
      cases x with
      | ok e => rfl
      | error err =>
        cases err with
        | stream s => rfl
        | parse s ev => rfl
        | anthropic a ev => cases a <;> rfl
  refine ⟨hpt, fun l => ?_⟩
  rw [hpt, hpt, List.filter_filter]
  simp only [Bool.and_self]

/-- C2 counterexample: a payload that decodes as **both** an event and the
error envelope — `{"type":"ping","error":{...}}` — is surfaced as the event
`Ping` by the source decoder (the untagged `ApiResult` declares its `Event`
variant first), while the spec's error-envelope-first decoder surfaces the
server error. -/
theorem decode_event_first_counterexample :
    decodeApiResult (.obj [("type", .str "ping"),
        ("error", .obj [("type", .str "overloaded_error"),
          ("message", .str "busy")])]) =
      some (.event .ping) ∧
    specDecodeApiResult (.obj [("type", .str "ping"),
        ("error", .obj [("type", .str "overloaded_error"),
          ("message", .str "busy")])]) =
      some (.error (.overloaded "busy")) ∧
    some (ApiResult.event .ping) ≠ some (ApiResult.error (.overloaded "busy")) :=
  ⟨rfl, rfl, fun h => by cases h⟩

/-- C2 as amended: the decoder is a two-step decode in the **reverse** order
of the spec's words — it attempts the seven `Event` shapes first and falls
back to the error envelope; on any payload that does not decode as both
shapes this coincides with the error-envelope-first decoder; a frame whose
payload parses or decodes as neither shape is surfaced as a parse error
preserving the original frame, and a decoded error envelope is surfaced as
a server error preserving the original frame. -/
theorem decode_two_step_spec :
    (∀ (j : Json) (e : Event), decodeEvent j = some e →
      decodeApiResult j = some (.event e)) ∧
    (∀ (j : Json) (err : AnthropicError), decodeEvent j = none →
      (j.getField "error").bind decodeAnthropicError = some err →
      decodeApiResult j = some (.error err)) ∧
    (∀ j : Json,
      (decodeEvent j = none ∨
        (j.getField "error").bind decodeAnthropicError = none) →
      decodeApiResult j = specDecodeApiResult j) ∧
    (∀ frame : SseEvent, Json.parse frame.data = none →
      decodeFrame frame = .error (.parse frame.data frame)) ∧
    (∀ (frame : SseEvent) (j : Json), Json.parse frame.data = some j →
      decodeApiResult j = none →
      decodeFrame frame = .error (.parse frame.data frame)) ∧
    (∀ (frame : SseEvent) (j : Json) (err : AnthropicError),
      Json.parse frame.data = some j →
      decodeApiResult j = some (.error err) →
      decodeFrame frame = .error (.anthropic err frame)) := by
  refine ⟨fun j e h => ?_, fun j err h1 h2 => ?_, fun j hor => ?_,
    fun frame h => ?_, fun frame j h1 h2 => ?_, fun frame j err h1 h2 => ?_⟩
  · unfold decodeApiResult
    rw [h]
  · unfold decodeApiResult
    rw [h1, h2]
  · unfold decodeApiResult specDecodeApiResult
    cases hev : decodeEvent j with
    | some e =>
      cases henv : (j.getField "error").bind decodeAnthropicError with
      | some err =>
        rcases hor with hor | hor
        · rw [hor] at hev; cases hev
        · rw [hor] at henv; cases henv
      | none => rfl
    | none => cases henv : (j.getField "error").bind decodeAnthropicError <;> rfl
  · unfold decodeFrame
    rw [h]
  · unfold decodeFrame
    rw [h1]
    show (match decodeApiResult j with
      | some (ApiResult.event e) => Except.ok e
      | some (ApiResult.error err) =>
        Except.error (Stream.Error.anthropic err frame)
      | none => Except.error (Stream.Error.parse frame.data frame)) = _
    rw [h2]
  · unfold decodeFrame
    rw [h1]
    show (match decodeApiResult j with
      | some (ApiResult.event e) => Except.ok e
      | some (ApiResult.error err) =>
        Except.error (Stream.Error.anthropic err frame)
      | none => Except.error (Stream.Error.parse frame.data frame)) = _
    rw [h2]

/-- Witness: C2 (amended) at concrete inputs — a plain `ping` payload
decodes event-first; a pure error envelope decodes as a server error and
agrees with the spec's order; an empty data string is a parse error
preserving the frame; a decodable-as-neither payload (`1`) is a parse error
preserving the frame; an error-envelope frame yields `Error::Anthropic`
preserving the frame. -/
theorem decode_two_step_spec_witness :
    decodeApiResult (.obj [("type", .str "ping")]) = some (.event .ping) ∧
    decodeApiResult (.obj [("error", .obj [("type", .str "overloaded_error"),
        ("message", .str "busy")])]) = some (.error (.overloaded "busy")) ∧
    decodeApiResult (.obj [("error", .obj [("type", .str "overloaded_error"),
        ("message", .str "busy")])]) =
      specDecodeApiResult (.obj [("error",
        .obj [("type", .str "overloaded_error"), ("message", .str "busy")])]) ∧
    decodeFrame ⟨"message", "", ""⟩ = .error (.parse "" ⟨"message", "", ""⟩) ∧
    decodeFrame ⟨"message", "1", ""⟩ =
      .error (.parse "1" ⟨"message", "1", ""⟩) ∧
    decodeFrame ⟨"error",
        "\x7b\"error\":\x7b\"type\":\"overloaded_error\",\"message\":\"busy\"\x7d\x7d",
        ""⟩ =
      .error (.anthropic (.overloaded "busy") ⟨"error",
        "\x7b\"error\":\x7b\"type\":\"overloaded_error\",\"message\":\"busy\"\x7d\x7d",
        ""⟩) :=
  ⟨decode_two_step_spec.1 _ .ping rfl,
    decode_two_step_spec.2.1 _ (.overloaded "busy") rfl rfl,
    decode_two_step_spec.2.2.1 _ (Or.inl rfl),
    decode_two_step_spec.2.2.2.1 _ rfl,
    decode_two_step_spec.2.2.2.2.1 _ (.num 1) rfl rfl,
    decode_two_step_spec.2.2.2.2.2 _
      (.obj [("error", .obj [("type", .str "overloaded_error"),
        ("message", .str "busy")])]) (.overloaded "busy") rfl rfl⟩

end Misanthropic
